import Mathlib

/-!
Verification of the texpect line-aggregation and pattern-wait engine
(`main.go`) against its natural-language specification.

The Go source is shallowly embedded: strings are `List Char`, the
byte-at-a-time line assembly loop of `watchFileLines` becomes
`splitLines`, the regex `\x1b\[[0-9;?]*[A-Za-z]` replacement of
`removeANSIEscapeSequences` becomes a character scanner, `expect` /
`expectAny` become functions over the finite list of lines consumed
before the timeout deadline, and channel / map behaviour is modelled
explicitly where a claim depends on it.
-/

/-! ### ANSI escape stripping (main.go lines 21-28)

The regex `\x1b\[[0-9;?]*[A-Za-z]` matches an ESC byte, `[`, any run
of parameter characters `0-9 ; ?`, then one ASCII letter.
`ReplaceAllString` removes every leftmost non-overlapping match.
Since the parameter class and the letter class are disjoint, a
deterministic left-to-right scan implements the same replacement. -/

def escChar : Char := '\x1b'

def isParamChar (c : Char) : Bool :=
  (('0' ≤ c && c ≤ '9') || c = ';' || c = '?')

def isAsciiLetter (c : Char) : Bool :=
  ('A' ≤ c && c ≤ 'Z') || ('a' ≤ c && c ≤ 'z')

/-- Consumes `[0-9;?]*[A-Za-z]` at the head of the list, returning the
remainder after the final letter, or `none` when the pattern does not
match here. -/
def afterEscBody : List Char → Option (List Char)
  | [] => none
  | c :: rest =>
    if isParamChar c then afterEscBody rest
    else if isAsciiLetter c then some rest
    else none

/-- One fuel unit is spent per scanned position; fuel equal to the
length of the input always suffices, so `removeANSIEscapeSequences`
below is total on its actual argument. -/
def stripFuel : Nat → List Char → List Char
  | 0, l => l
  | _ + 1, [] => []
  | fuel + 1, c :: rest =>
    if c = escChar then
      match rest with
      | '[' :: rest₂ =>
        match afterEscBody rest₂ with
        | some rest₃ => stripFuel fuel rest₃
        | none => c :: stripFuel fuel rest
      | _ => c :: stripFuel fuel rest
    else c :: stripFuel fuel rest

/-- Embedding of `removeANSIEscapeSequences` (main.go line 26):
`ansiRegexp.ReplaceAllString(s, "")`. -/
def removeANSIEscapeSequences (l : List Char) : List Char :=
  stripFuel l.length l

/-! ### Line assembly (main.go lines 138-162)

`watchFileLines` keeps a `strings.Builder` of bytes read since the
last newline, appends each newly read byte, and on a `'\n'` byte sends
`removeANSIEscapeSequences(line.String())` — the accumulated bytes
*including* the newline — on the shared channel, then resets the
builder.  `splitLines buf input` returns the list of raw (pre-strip)
published segments and the final builder contents. -/

def splitLines : List Char → List Char → List (List Char) × List Char
  | buf, [] => ([], buf)
  | buf, c :: rest =>
    if c = '\n' then
      ((buf ++ [c]) :: (splitLines [] rest).1, (splitLines [] rest).2)
    else
      splitLines (buf ++ [c]) rest

/-- Lines published on `recvLineCh` for a given builder state and newly
read bytes: each complete raw segment, escape-stripped at publish time
(main.go line 152). -/
def publishedLines (buf input : List Char) : List (List Char) :=
  ((splitLines buf input).1).map removeANSIEscapeSequences

/-! ### Source registration and seek-to-end (main.go lines 125-138)

`watchFileLines` opens the file, seeks to its current end
(`file.Seek(0, io.SeekEnd)`), and thereafter reads only bytes at or
beyond that offset.  `pre` is the file content at registration time,
`appended` the bytes appended afterwards. -/

def bytesReadAfterRegistration (pre appended : List Char) : List Char :=
  (pre ++ appended).drop pre.length

/-- Lines a freshly registered tailer delivers, given the file content
`pre` at registration and the bytes `appended` afterwards: the
seek-to-end read window, assembled and escape-stripped. -/
def tailerDeliveredLines (pre appended : List Char) : List (List Char) :=
  publishedLines [] (bytesReadAfterRegistration pre appended)

/-! ### Substring matching (strings.Contains)

`strings.Contains(line, pat)` reports whether `pat` occurs as a
contiguous substring of `line`; the empty pattern is contained in
every string. -/

def containsSubstr : List Char → List Char → Bool
  | [], pat => pat.isEmpty
  | s@(_ :: t), pat => pat.isPrefixOf s || containsSubstr t pat

/-! ### Wait engine (main.go lines 251-304)

`expect` and `expectAny` loop, each iteration selecting either the
next line from the shared channel or the timeout.  We model a run by
the finite list of lines consumed before the deadline fires; the
functions return the Lua number the code pushes (`-1` is the timeout
sentinel). -/

/-- Inner pattern loop of `expectAny` (main.go lines 293-298): the
first index, in table order, whose pattern is contained in the line. -/
def expectAnyStep : List (List Char) → List Char → Option Nat
  | [], _ => none
  | p :: ps, line =>
    if containsSubstr line p then some 0
    else (expectAnyStep ps line).map (· + 1)

/-- Outer line loop of `expectAny` (main.go lines 290-303): `some i`
when a consumed line matches pattern `i`, `none` when the deadline
fires first. -/
def expectAnyRun (patterns : List (List Char)) : List (List Char) → Option Nat
  | [] => none
  | line :: rest =>
    match expectAnyStep patterns line with
    | some i => some i
    | none => expectAnyRun patterns rest

/-- Lua number pushed by `expectAny`: the matched index, or `-1` on
timeout (main.go lines 295, 300). -/
def expectAnyResult (patterns lines : List (List Char)) : Int :=
  match expectAnyRun patterns lines with
  | some i => Int.ofNat i
  | none => -1

/-- Lua number pushed by `expect` (main.go lines 262-273): `0` as soon
as a consumed line contains the pattern, `-1` when the deadline fires
first. -/
def expectResult (pattern : List Char) : List (List Char) → Int
  | [] => -1
  | line :: rest =>
    if containsSubstr line pattern then 0 else expectResult pattern rest

/-! ### Timeout deadline (main.go lines 253, 260, 281, 288)

`timeout := L.OptInt(2, math.MaxInt)` defaults the Lua argument to
`math.MaxInt`, and `time.After(time.Duration(timeout) * time.Second)`
multiplies it by `10^9` in `time.Duration`, a 64-bit two's-complement
integer whose arithmetic wraps.  `time.After` with a non-positive
duration fires immediately. -/

def goMaxInt : Int := 9223372036854775807

def nanosecondsPerSecond : Int := 1000000000

/-- Wraps an integer into the two's-complement range of a 64-bit
signed integer, as Go's `time.Duration` multiplication does. -/
def int64Wrap (n : Int) : Int :=
  (n + 9223372036854775808) % 18446744073709551616 - 9223372036854775808

/-- Duration in nanoseconds handed to `time.After` for a timeout of
`t` seconds. -/
def timeoutDurationNs (t : Int) : Int :=
  int64Wrap (t * nanosecondsPerSecond)

/-! ### Registration error flow (main.go lines 101-136)

Inside `watchFileLines`, the `fsnotify.NewWatcher()` error and the
`watcher.Add(filePath)` error are discarded, and the `os.Open` error
is discarded too; the only error that surfaces is the one `Seek`
returns on the nil file handle of a failed open, and `watchFileLines`
returns it.  `watchLatestLine` (lines 113-117) runs
`_ = l.watchFileLines(ctx, p)` in a goroutine, discarding that return
value; `AddFilePath` (lines 97-99) returns nothing to the registrant. -/

structure TailerEnv where
  openOk : Bool
  watchOk : Bool

/-- Error returned by `watchFileLines` during startup: only a failed
open surfaces (via `Seek` on the nil handle); watch-setup failures are
swallowed by the blank identifiers on lines 127 and 129. -/
def watchFileLinesStartErr (env : TailerEnv) : Option String :=
  if env.openOk then none else some "invalid argument"

/-- Models `_ = l.watchFileLines(ctx, p)` on line 116: whatever the
tailer returned, nothing is propagated. -/
def discardTailerResult (_r : Option String) : Option String := none

/-- Error the registrant of a source observes for a given environment. -/
def registrantReport (env : TailerEnv) : Option String :=
  discardTailerResult (watchFileLinesStartErr env)

/-! ### The shared sink (main.go lines 89-95, 150-155)

`NewLineWatcher` creates `recvLineCh` with `make(chan string)` — an
unbuffered Go channel.  A send on a channel proceeds without blocking
exactly when a receiver is already waiting or the buffer has free
space. -/

def recvLineChCapacity : Nat := 0

def sendProceeds (capacity queued : Nat) (receiverWaiting : Bool) : Bool :=
  receiverWaiting || decide (queued < capacity)

/-! ### Window registry and `send` (main.go lines 22, 220-246)

`windowMap` maps window names to `*Window`; a successful `spawn`
stores the window (line 229).  `send` does `win := windowMap[windowName]`
— a miss yields the zero value, a nil pointer — and then calls
`win.SendCommand(command)`, whose value receiver dereferences the nil
pointer and panics. -/

structure Window where
  name : String
  command : String

def windowLookup (m : List (String × Window)) (name : String) : Option Window :=
  (m.find? (fun p => p.1 == name)).map Prod.snd

/-- Successful `spawn` stores the window under its name (line 229); a
failed `Start` raises before the store, leaving the map unchanged. -/
def spawnApi (m : List (String × Window)) (name cmd : String)
    (startOk : Bool) : List (String × Window) :=
  if startOk then (name, ⟨name, cmd⟩) :: m else m

inductive SendOutcome where
  | sent (window : String) (cmd : String)
  | nilDeref
deriving DecidableEq

/-- Embedding of the `send` Lua function (main.go lines 237-246). -/
def sendApi (m : List (String × Window)) (name cmd : String) : SendOutcome :=
  match windowLookup m name with
  | some w => .sent w.name cmd
  | none => .nilDeref

/-! ### Helper lemmas -/

/-- Processing a newline-free chunk only grows the builder: reading it
with builder `buf` is the same as having those bytes already buffered. -/
theorem splitLines_carry :
    ∀ (mid : List Char), '\n' ∉ mid → ∀ buf input,
      splitLines buf (mid ++ input) = splitLines (buf ++ mid) input := by
  intro mid
  induction mid with
  | nil => intro _ buf input; simp
  | cons c m ih =>
    intro h buf input
    simp only [List.mem_cons, not_or] at h
    have hc : ¬ c = '\n' := fun e => h.1 e.symm
    have step : splitLines buf ((c :: m) ++ input)
        = splitLines (buf ++ [c]) (m ++ input) := by
      simp [splitLines, hc]
    rw [step, ih h.2 (buf ++ [c]) input, List.append_assoc]
    rfl

/-- Every raw segment the assembly loop publishes ends with the
newline that triggered its publication. -/
theorem splitLines_segments_end_newline (input : List Char) :
    ∀ buf, ∀ s ∈ (splitLines buf input).1, s.getLast? = some '\n' := by
  induction input with
  | nil => intro buf s hs; simp [splitLines] at hs
  | cons c rest ih =>
    intro buf s hs
    by_cases hc : c = '\n'
    · subst hc
      simp only [splitLines, if_true, List.mem_cons] at hs
      rcases hs with h | h
      · subst h; simp
      · exact ih [] s h
    · simp only [splitLines, if_neg hc] at hs
      exact ih (buf ++ [c]) s hs

/-- The leftover builder contents never contain a newline. -/
theorem splitLines_leftover_no_newline (input : List Char) :
    ∀ buf, '\n' ∉ buf → '\n' ∉ (splitLines buf input).2 := by
  induction input with
  | nil => intro buf h; simpa [splitLines] using h
  | cons c rest ih =>
    intro buf h
    by_cases hc : c = '\n'
    · subst hc
      simpa [splitLines] using ih [] (by simp)
    · simp only [splitLines, if_neg hc]
      refine ih (buf ++ [c]) ?_
      intro hmem
      rcases List.mem_append.1 hmem with h1 | h1
      · exact h h1
      · simp only [List.mem_singleton] at h1
        exact hc h1.symm

/-- Specification of the inner pattern loop: a returned index points at
a pattern contained in the line, and every earlier pattern is not. -/
theorem expectAnyStep_eq_some (line : List Char) :
    ∀ (ps : List (List Char)) (i : Nat), expectAnyStep ps line = some i →
      ∃ p, ps[i]? = some p ∧ containsSubstr line p = true ∧
        ∀ j q, j < i → ps[j]? = some q → containsSubstr line q = false := by
  intro ps
  induction ps with
  | nil => intro i h; simp [expectAnyStep] at h
  | cons p ps ih =>
    intro i h
    by_cases hp : containsSubstr line p = true
    · simp only [expectAnyStep, if_pos hp, Option.some.injEq] at h
      subst h
      exact ⟨p, by simp, hp, fun j q hj => absurd hj (Nat.not_lt_zero j)⟩
    · simp only [expectAnyStep, if_neg hp, Option.map_eq_some'] at h
      obtain ⟨a, ha, hai⟩ := h
      obtain ⟨q, hq1, hq2, hq3⟩ := ih a ha
      subst hai
      refine ⟨q, by simpa using hq1, hq2, ?_⟩
      intro j r hj hr
      match j with
      | 0 =>
        simp only [List.getElem?_cons_zero, Option.some.injEq] at hr
        subst hr
        exact Bool.not_eq_true _ ▸ eq_false_of_ne_true hp
      | Nat.succ j' =>
        simp only [List.getElem?_cons_succ] at hr
        exact hq3 j' r (Nat.lt_of_succ_lt_succ hj) hr

/-- Lines on which the pattern loop finds nothing are consumed and
skipped by the outer loop. -/
theorem expectAnyRun_append_no_match :
    ∀ (patterns pre rest : List (List Char)),
      (∀ l ∈ pre, expectAnyStep patterns l = none) →
      expectAnyRun patterns (pre ++ rest) = expectAnyRun patterns rest := by
  intro patterns pre
  induction pre with
  | nil => intro rest _; simp
  | cons l pre ih =>
    intro rest h
    have hl : expectAnyStep patterns l = none := h l (by simp)
    simp only [List.cons_append, expectAnyRun, hl]
    exact ih rest fun l' hl' => h l' (by simp [hl'])

/-- Closed form of `expectResult`: `0` when some consumed line contains
the pattern, `-1` otherwise. -/
theorem expectResult_eq_ite (pattern : List Char) (lines : List (List Char)) :
    expectResult pattern lines =
      if lines.any (fun line => containsSubstr line pattern) then 0 else -1 := by
  induction lines with
  | nil => rfl
  | cons l ls ih =>
    by_cases hl : containsSubstr l pattern = true <;>
      simp [expectResult, hl, ih]

/-! ### Claim theorems -/

/-- Claim C1 (code_bug): with the timeout argument omitted, `expect` and
`expectAny` default it to `math.MaxInt` seconds, and
`time.Duration(timeout) * time.Second` overflows 64-bit arithmetic to
`-1000000000` nanoseconds — a negative, already-elapsed deadline on
which `time.After` fires immediately, not an effectively infinite one
as the spec (and the surrounding code) intends. -/
theorem default_timeout_deadline_already_elapsed :
    timeoutDurationNs goMaxInt = -1000000000 ∧ timeoutDurationNs goMaxInt < 0 := by
  constructor <;> decide

/-- Claim C2 (counterexample): the raw bytes
`"\x1b[31mHELLO\x1b[0m\n"` are delivered as `"HELLO\n"`, not as the
claimed `"HELLO"` — line 149 appends the newline byte to the builder
before line 152 publishes the stripped builder contents, so the
trailing newline is part of the delivered content. -/
theorem delivered_line_keeps_newline_counterexample :
    tailerDeliveredLines [] ("\x1b[31mHELLO\x1b[0m\n".toList)
      = ["HELLO\n".toList] ∧
    "HELLO\n".toList ≠ "HELLO".toList := by
  constructor <;> decide

/-- Claim C2 (amended): for every appended terminated line, the Line
delivered through the aggregate stream is the raw text with
ANSI/VT control sequences removed and the trailing newline INCLUDED in
the content. -/
theorem delivered_line_is_stripped_raw_with_newline (body : List Char)
    (h : '\n' ∉ body) :
    tailerDeliveredLines [] (body ++ ['\n'])
      = [removeANSIEscapeSequences (body ++ ['\n'])] := by
  unfold tailerDeliveredLines bytesReadAfterRegistration publishedLines
  simp only [List.nil_append, List.length_nil, List.drop_zero]
  rw [splitLines_carry body h [] ['\n']]
  simp [splitLines]

/-- Witness for the amended C2 theorem at the spec's concrete input. -/
theorem delivered_line_is_stripped_raw_with_newline_witness :
    tailerDeliveredLines [] ("\x1b[31mHELLO\x1b[0m".toList ++ ['\n'])
      = [removeANSIEscapeSequences ("\x1b[31mHELLO\x1b[0m".toList ++ ['\n'])] :=
  delivered_line_is_stripped_raw_with_newline "\x1b[31mHELLO\x1b[0m".toList
    (by decide)

/-- Claim C3: every consumed line is tested against the patterns in
list order before the next line is consumed; the call returns the
lowest index whose pattern is contained in the first matching line,
and every lower-indexed pattern is absent from that line. -/
theorem expectAny_lowest_index_in_first_matching_line
    (patterns pre rest : List (List Char)) (line : List Char) (i : Nat)
    (hpre : ∀ l ∈ pre, expectAnyStep patterns l = none)
    (hline : expectAnyStep patterns line = some i) :
    expectAnyResult patterns (pre ++ line :: rest) = Int.ofNat i ∧
    (∃ p, patterns[i]? = some p ∧ containsSubstr line p = true) ∧
    (∀ j q, j < i → patterns[j]? = some q → containsSubstr line q = false) := by
  obtain ⟨p, hp1, hp2, hp3⟩ := expectAnyStep_eq_some line patterns i hline
  refine ⟨?_, ⟨p, hp1, hp2⟩, hp3⟩
  unfold expectAnyResult
  rw [expectAnyRun_append_no_match patterns pre (line :: rest) hpre]
  simp [expectAnyRun, hline]

/-- Witness for C3: with patterns `["A", "B"]`, a line containing `"B"`
arriving before any line containing `"A"` yields index 1, not 0. -/
theorem expectAny_lowest_index_witness :
    expectAnyResult ["A".toList, "B".toList]
        (["connecting...".toList] ++ "xxByy".toList :: []) = Int.ofNat 1 :=
  (expectAny_lowest_index_in_first_matching_line
    ["A".toList, "B".toList] ["connecting...".toList] [] "xxByy".toList 1
    (by decide) (by decide)).1

/-- Claim C4 (counterexample): when the log file cannot be opened, the
error that `watchFileLines` returns (from `Seek` on the nil handle) is
discarded by the goroutine in `watchLatestLine`, and a failed watch
setup produces no error anywhere; in both cases the registrant
receives nothing, contradicting reported-exactly-once. -/
theorem registration_failure_silently_discarded :
    watchFileLinesStartErr ⟨false, true⟩ = some "invalid argument" ∧
    registrantReport ⟨false, true⟩ = none ∧
    registrantReport ⟨true, false⟩ = none :=
  ⟨rfl, rfl, rfl⟩

/-- Claim C4 (amended): open and watch failures are never reported to
the registrant — the tailer's error return is discarded and the source
simply never produces Lines. -/
theorem registrant_never_receives_error (env : TailerEnv) :
    registrantReport env = none := rfl

/-- Claim C5: the tailer seeks to end-of-file at registration, so the
lines it delivers are a function of the appended bytes alone — no
delivered Line contains bytes written before registration. -/
theorem no_line_from_before_registration (pre appended : List Char) :
    tailerDeliveredLines pre appended = tailerDeliveredLines [] appended := by
  unfold tailerDeliveredLines bytesReadAfterRegistration
  simp [List.drop_left]

/-- Claim C6: every published raw segment ends with its terminating
newline, the retained fragment contains no newline, and holding the
fragment in the builder is the same as prefixing it onto the next
read. -/
theorem line_published_only_after_newline (buf input : List Char)
    (h : '\n' ∉ buf) :
    (∀ s ∈ (splitLines buf input).1, s.getLast? = some '\n') ∧
    '\n' ∉ (splitLines buf input).2 ∧
    splitLines buf input = splitLines [] (buf ++ input) := by
  refine ⟨splitLines_segments_end_newline input buf,
    splitLines_leftover_no_newline input buf h, ?_⟩
  rw [splitLines_carry buf h [] input]
  simp

/-- Witness for C6 on a concrete fragment and read. -/
theorem line_published_only_after_newline_witness :
    '\n' ∉ (['a'] : List Char) ∧
    ((∀ s ∈ (splitLines ['a'] ['b', '\n', 'c']).1, s.getLast? = some '\n') ∧
     '\n' ∉ (splitLines ['a'] ['b', '\n', 'c']).2 ∧
     splitLines ['a'] ['b', '\n', 'c'] = splitLines [] (['a'] ++ ['b', '\n', 'c'])) :=
  ⟨by decide, line_published_only_after_newline ['a'] ['b', '\n', 'c'] (by decide)⟩

/-- Claim C7: `expect` pushes only the fixed success value `0` or the
timeout sentinel `-1`; the success value is the constant `0`,
independent of the pattern and of which consumed line matched, so the
result conveys only success or timeout, never an index. -/
theorem expect_fixed_success_sentinel (pattern : List Char)
    (lines : List (List Char)) :
    (expectResult pattern lines = 0 ∨ expectResult pattern lines = -1) ∧
    (expectResult pattern lines = 0 ↔
      lines.any (fun line => containsSubstr line pattern) = true) := by
  rw [expectResult_eq_ite]
  by_cases h : lines.any (fun line => containsSubstr line pattern) = true <;>
    simp [h]

/-- Claim C8: `expectAny` with an empty pattern list never matches any
consumed line and pushes the timeout sentinel `-1` exactly when the
deadline fires (which, the lines being exhausted unmatched, it does). -/
theorem expectAny_empty_patterns_times_out (lines : List (List Char)) :
    expectAnyRun [] lines = none ∧ expectAnyResult [] lines = -1 := by
  have h : expectAnyRun [] lines = none := by
    induction lines with
    | nil => rfl
    | cons l ls ih => simpa [expectAnyRun, expectAnyStep] using ih
  exact ⟨h, by simp [expectAnyResult, h]⟩

/-- Claim C9 (counterexample): `recvLineCh` is created with capacity 0,
so a tailer holding a complete line and finding no waiting receiver
cannot hand it off — the send blocks, contradicting the claim that the
sink always accepts Lines. -/
theorem tailer_blocks_without_receiver :
    sendProceeds recvLineChCapacity 0 false = false := rfl

/-- Claim C9 (amended): the shared sink is an unbuffered rendezvous
channel — a send proceeds exactly when a receiver is already waiting,
and no Lines ever accumulate inside the channel. -/
theorem sink_is_unbuffered_rendezvous (queued : Nat) :
    sendProceeds recvLineChCapacity queued false = false ∧
    sendProceeds recvLineChCapacity queued true = true := by
  constructor <;> simp [sendProceeds, recvLineChCapacity]

/-- Claim C10: `send` on a window name with no successful spawn looks
up a nil window handle and dereferences it (a crash, not a reportable
error); under the precondition that the name was spawned, it sends the
command to that window. -/
theorem send_unspawned_window_nil_deref (m : List (String × Window))
    (name cmd : String) :
    (windowLookup m name = none → sendApi m name cmd = SendOutcome.nilDeref) ∧
    (∀ w, windowLookup m name = some w →
      sendApi m name cmd = SendOutcome.sent w.name cmd) := by
  constructor
  · intro h; simp [sendApi, h]
  · intro w hw; simp [sendApi, hw]

/-- Witness for C10: sending to a never-spawned window name on the
empty registry dereferences nil. -/
theorem send_unspawned_window_nil_deref_witness :
    windowLookup [] "serv1" = none ∧
    sendApi [] "serv1" "date" = SendOutcome.nilDeref :=
  ⟨rfl, (send_unspawned_window_nil_deref [] "serv1" "date").1 rfl⟩
